import Mathlib

set_option maxHeartbeats 1000000

namespace Roadside

/-- Updates the first element satisfying `p`, embedding the JavaScript pattern
`findIndex` followed by an assignment at the found index (a `-1` index leaves
the list unchanged). -/
def updateFirst {α : Type} (p : α → Bool) (f : α → α) : List α → List α
  | [] => []
  | x :: xs => if p x then f x :: xs else x :: updateFirst p f xs

/-- Removes the first element satisfying `p`, embedding the JavaScript pattern
`findIndex` followed by `splice(index, 1)`. -/
def removeFirst {α : Type} (p : α → Bool) : List α → List α
  | [] => []
  | x :: xs => if p x then xs else x :: removeFirst p xs

/-- Maximum of a list of naturals, embedding `Math.max(...ids)` (used only on
nonempty lists, as in `getNextId`). -/
def maxNat : List Nat → Nat
  | [] => 0
  | x :: xs => max x (maxNat xs)

/-- Embeds `getNextId` of `server.js`: `1` on an empty collection, otherwise
`Math.max(...ids) + 1`. Timestamps and ids are modelled as naturals. -/
def getNextId (ids : List Nat) : Nat :=
  if ids.isEmpty then 1 else maxNat ids + 1

/-- A roadside-assistance request record of `database.json`. ISO timestamp
strings are modelled as naturals that grow with wall-clock time. -/
structure Request where
  id : Nat
  userInfo : String
  imageUrl : Option String
  status : String
  createdAt : Nat
  updatedAt : Nat
deriving DecidableEq

/-- A contact (service provider) record. -/
structure Contact where
  id : Nat
  name : String
  phone : String
  email : String
  role : String
  createdAt : Nat
deriving DecidableEq

/-- A user (dispatcher/operator) record. -/
structure User where
  id : Nat
  username : String
  email : String
  role : String
  status : String
  createdAt : Nat
deriving DecidableEq

/-- An admin record. -/
structure Admin where
  id : Nat
  name : String
  username : String
  email : String
  phone : String
  level : String
  status : String
  createdAt : Nat
deriving DecidableEq

/-- An assignment record binding a contact and a user to a request. -/
structure Assignment where
  id : Nat
  requestId : Nat
  contactId : Nat
  userId : Nat
  status : String
  createdAt : Nat
deriving DecidableEq

/-- The whole persisted store (`database.json`). -/
structure DB where
  requests : List Request
  contacts : List Contact
  users : List User
  admins : List Admin
  assignments : List Assignment
deriving DecidableEq

/-- Failures surfaced to the HTTP caller. -/
inductive StoreError where
  | notFound
deriving DecidableEq

/-- The seed content written by `initializeDatabase` (seed timestamps are all
modelled as `0`). -/
def initialData : DB :=
  { requests := []
  , contacts :=
      [ { id := 1, name := "Ahmed Mechanic", phone := "0612345678",
          email := "ahmed@roadside.com", role := "mechanic", createdAt := 0 }
      , { id := 2, name := "Fatima Towing", phone := "0623456789",
          email := "fatima@roadside.com", role := "towing", createdAt := 0 }
      , { id := 3, name := "Karim Emergency", phone := "0634567890",
          email := "karim@roadside.com", role := "emergency", createdAt := 0 } ]
  , users :=
      [ { id := 1, username := "admin1", email := "admin1@roadside.com",
          role := "admin", status := "active", createdAt := 0 }
      , { id := 2, username := "superadmin", email := "super@roadside.com",
          role := "super_admin", status := "active", createdAt := 0 }
      , { id := 3, username := "operator1", email := "op1@roadside.com",
          role := "operator", status := "active", createdAt := 0 } ]
  , admins :=
      [ { id := 1, name := "John Admin", username := "admin1",
          email := "admin1@roadside.com", phone := "0612345678",
          level := "admin", status := "active", createdAt := 0 }
      , { id := 2, name := "Sarah Super", username := "superadmin",
          email := "super@roadside.com", phone := "0623456789",
          level := "super_admin", status := "active", createdAt := 0 } ]
  , assignments := [] }

/-- Embeds `POST /api/requests`: push a new request with the next id,
status `Submitted`, `createdAt = updatedAt = now`. -/
def createRequest (db : DB) (userInfo : String) (imageUrl : Option String)
    (now : Nat) : DB :=
  let newRequest : Request :=
    { id := getNextId (db.requests.map (·.id)), userInfo := userInfo,
      imageUrl := imageUrl, status := "Submitted",
      createdAt := now, updatedAt := now }
  { db with requests := db.requests ++ [newRequest] }

/-- Embeds `PUT /api/requests/:id/status`: 404 when no request has the id,
otherwise set `status` (unvalidated text) and refresh `updatedAt`. -/
def updateRequestStatus (db : DB) (id : Nat) (status : String) (now : Nat) :
    Except StoreError DB :=
  if db.requests.any (fun r => r.id == id) then
    let requests :=
      updateFirst (fun r => r.id == id)
        (fun r => { r with status := status, updatedAt := now }) db.requests
    .ok { db with requests := requests }
  else
    .error .notFound

/-- Embeds `DELETE /api/requests/:id`: the handler first filters the
assignments of this request out of the in-memory copy, then looks the request
up; on 404 `writeDatabase` is never called, so the error carries no state. -/
def deleteRequest (db : DB) (id : Nat) : Except StoreError DB :=
  let db1 := { db with assignments :=
    db.assignments.filter (fun a => a.requestId != id) }
  if db1.requests.any (fun r => r.id == id) then
    .ok { db1 with requests := removeFirst (fun r => r.id == id) db1.requests }
  else
    .error .notFound

/-- Embeds `POST /api/contacts`. -/
def createContact (db : DB) (name phone email role : String) (now : Nat) : DB :=
  let newContact : Contact :=
    { id := getNextId (db.contacts.map (·.id)), name := name, phone := phone,
      email := email, role := role, createdAt := now }
  { db with contacts := db.contacts ++ [newContact] }

/-- Embeds `PUT /api/contacts/:id`: wholesale replacement of the four mutable
fields. -/
def updateContact (db : DB) (id : Nat) (name phone email role : String) :
    Except StoreError DB :=
  if db.contacts.any (fun c => c.id == id) then
    let contacts :=
      updateFirst (fun c => c.id == id)
        (fun c => { c with name := name, phone := phone, email := email, role := role })
        db.contacts
    .ok { db with contacts := contacts }
  else
    .error .notFound

/-- Embeds `DELETE /api/contacts/:id`: assignments referencing the contact are
filtered in memory before the existence check; 404 writes nothing. -/
def deleteContact (db : DB) (id : Nat) : Except StoreError DB :=
  let db1 := { db with assignments :=
    db.assignments.filter (fun a => a.contactId != id) }
  if db1.contacts.any (fun c => c.id == id) then
    .ok { db1 with contacts := removeFirst (fun c => c.id == id) db1.contacts }
  else
    .error .notFound

/-- Embeds `POST /api/users` (no username or email uniqueness check appears in
the handler). -/
def createUser (db : DB) (username email role status : String) (now : Nat) :
    DB :=
  let newUser : User :=
    { id := getNextId (db.users.map (·.id)), username := username,
      email := email, role := role, status := status, createdAt := now }
  { db with users := db.users ++ [newUser] }

/-- Embeds `PUT /api/users/:id`. -/
def updateUser (db : DB) (id : Nat) (username email role status : String) :
    Except StoreError DB :=
  if db.users.any (fun u => u.id == id) then
    let users :=
      updateFirst (fun u => u.id == id)
        (fun u => { u with username := username, email := email, role := role, status := status })
        db.users
    .ok { db with users := users }
  else
    .error .notFound

/-- Embeds `DELETE /api/users/:id`: cascade on `userId`, then existence
check. -/
def deleteUser (db : DB) (id : Nat) : Except StoreError DB :=
  let db1 := { db with assignments :=
    db.assignments.filter (fun a => a.userId != id) }
  if db1.users.any (fun u => u.id == id) then
    .ok { db1 with users := removeFirst (fun u => u.id == id) db1.users }
  else
    .error .notFound

/-- Embeds `POST /api/admins`. -/
def createAdmin (db : DB) (name username email phone level status : String)
    (now : Nat) : DB :=
  let newAdmin : Admin :=
    { id := getNextId (db.admins.map (·.id)), name := name,
      username := username, email := email, phone := phone, level := level,
      status := status, createdAt := now }
  { db with admins := db.admins ++ [newAdmin] }

/-- Embeds `PUT /api/admins/:id`. -/
def updateAdmin (db : DB) (id : Nat)
    (name username email phone level status : String) :
    Except StoreError DB :=
  if db.admins.any (fun a => a.id == id) then
    let admins :=
      updateFirst (fun a => a.id == id)
        (fun a => { a with name := name, username := username, email := email, phone := phone, level := level, status := status })
        db.admins
    .ok { db with admins := admins }
  else
    .error .notFound

/-- Embeds `DELETE /api/admins/:id` (no cascade: assignments do not reference
admins). -/
def deleteAdmin (db : DB) (id : Nat) : Except StoreError DB :=
  if db.admins.any (fun a => a.id == id) then
    .ok { db with admins := removeFirst (fun a => a.id == id) db.admins }
  else
    .error .notFound

/-- Embeds `POST /api/assignments`: update the first assignment with this
`requestId` in place (preserving `id` and `createdAt`), or push a fresh one;
then unconditionally force the request (when present) to `In Progress` and
refresh its `updatedAt`. Never fails; no existence checks on the ids. -/
def upsertAssignment (db : DB) (requestId contactId userId : Nat)
    (status : String) (now : Nat) : DB :=
  let assignments :=
    if db.assignments.any (fun a => a.requestId == requestId) then
      updateFirst (fun a => a.requestId == requestId)
        (fun a => { a with contactId := contactId, userId := userId, status := status })
        db.assignments
    else
      db.assignments ++
        [{ id := getNextId (db.assignments.map (·.id)), requestId := requestId,
           contactId := contactId, userId := userId, status := status,
           createdAt := now }]
  let requests :=
    updateFirst (fun r => r.id == requestId)
      (fun r => { r with status := "In Progress", updatedAt := now })
      db.requests
  { db with assignments := assignments, requests := requests }

/-- One mutating store operation (reads are pure and need no step). -/
inductive Op where
  | createRequest (userInfo : String) (imageUrl : Option String) (now : Nat)
  | updateRequestStatus (id : Nat) (status : String) (now : Nat)
  | deleteRequest (id : Nat)
  | createContact (name phone email role : String) (now : Nat)
  | updateContact (id : Nat) (name phone email role : String)
  | deleteContact (id : Nat)
  | createUser (username email role status : String) (now : Nat)
  | updateUser (id : Nat) (username email role status : String)
  | deleteUser (id : Nat)
  | createAdmin (name username email phone level status : String) (now : Nat)
  | updateAdmin (id : Nat) (name username email phone level status : String)
  | deleteAdmin (id : Nat)
  | upsertAssignment (requestId contactId userId : Nat) (status : String)
      (now : Nat)

/-- The persisted state left by a handler: on success the mutated store is
written back (`writeDatabase`); on failure nothing is written, so the
persisted state stays as it was. -/
def persist (db : DB) : Except StoreError DB → DB
  | .ok db1 => db1
  | .error _ => db

/-- Effect of one operation on the persisted store. -/
def step (db : DB) : Op → DB
  | .createRequest u img t => createRequest db u img t
  | .updateRequestStatus i s t => persist db (updateRequestStatus db i s t)
  | .deleteRequest i => persist db (deleteRequest db i)
  | .createContact n p e r t => createContact db n p e r t
  | .updateContact i n p e r => persist db (updateContact db i n p e r)
  | .deleteContact i => persist db (deleteContact db i)
  | .createUser un e r s t => createUser db un e r s t
  | .updateUser i un e r s => persist db (updateUser db i un e r s)
  | .deleteUser i => persist db (deleteUser db i)
  | .createAdmin n un e p l s t => createAdmin db n un e p l s t
  | .updateAdmin i n un e p l s => persist db (updateAdmin db i n un e p l s)
  | .deleteAdmin i => persist db (deleteAdmin db i)
  | .upsertAssignment r c u s t => upsertAssignment db r c u s t

/-- Runs a sequence of operations from a given store. -/
def runOps (db : DB) (ops : List Op) : DB :=
  ops.foldl step db

/-- Placeholder image path used by `clean-database.js`. -/
def PLACEHOLDER : String := "/uploads/placeholder.png"

/-- Dedup key of `clean-database.js`: `req.userInfo + '|' + req.imageUrl`,
where a JavaScript `null` stringifies to `"null"`. -/
def reqKey (r : Request) : String :=
  r.userInfo ++ "|" ++ (match r.imageUrl with | some s => s | none => "null")

/-- The stateful `filter` of `cleanRequests`: keep the first record bearing
each key, tracked by the `seen` set. -/
def dedupByKey (seen : List String) : List Request → List Request
  | [] => []
  | r :: rs =>
    if seen.contains (reqKey r) then dedupByKey seen rs
    else r :: dedupByKey (reqKey r :: seen) rs

/-- The `map` body of `cleanRequests`: overwrite `id` with the running
counter and replace a null `imageUrl` with the placeholder. -/
def fixRequest (n : Nat) (r : Request) : Request :=
  let url := match r.imageUrl with
    | none => PLACEHOLDER
    | some s => s
  { r with id := n, imageUrl := some url }

/-- The stateful `map` of `cleanRequests` with its `nextId++` counter. -/
def renumber (n : Nat) : List Request → List Request
  | [] => []
  | r :: rs => fixRequest n r :: renumber (n + 1) rs

/-- Embeds `cleanRequests` of `clean-database.js`. -/
def cleanRequests (requests : List Request) : List Request :=
  renumber 1 (dedupByKey [] requests)

/-! Helper lemmas about `updateFirst`, `removeFirst` and id allocation. -/

theorem updateFirst_map {α β : Type} (p : α → Bool) (f : α → α) (g : α → β)
    (h : ∀ a, g (f a) = g a) (l : List α) :
    (updateFirst p f l).map g = l.map g := by
  induction l with
  | nil => rfl
  | cons x xs ih => cases hx : p x <;> simp [updateFirst, hx, h, ih]

theorem updateFirst_countP {α : Type} (p q : α → Bool) (f : α → α)
    (h : ∀ a, q (f a) = q a) (l : List α) :
    (updateFirst p f l).countP q = l.countP q := by
  induction l with
  | nil => rfl
  | cons x xs ih =>
    cases hx : p x <;> simp [updateFirst, hx, List.countP_cons, h, ih]

theorem updateFirst_length {α : Type} (p : α → Bool) (f : α → α)
    (l : List α) : (updateFirst p f l).length = l.length := by
  induction l with
  | nil => rfl
  | cons x xs ih => cases hx : p x <;> simp [updateFirst, hx, ih]

theorem find?_updateFirst {α : Type} (p : α → Bool) (f : α → α)
    (h : ∀ a, p (f a) = p a) {l : List α} {r : α}
    (hf : l.find? p = some r) :
    (updateFirst p f l).find? p = some (f r) := by
  induction l with
  | nil => simp at hf
  | cons x xs ih =>
    cases hx : p x with
    | true =>
      simp [List.find?_cons, hx] at hf
      subst hf
      simp [updateFirst, hx, List.find?_cons, h]
    | false =>
      simp [List.find?_cons, hx] at hf
      simp [updateFirst, hx, List.find?_cons, ih hf]

theorem mem_updateFirst_of_neg {α : Type} (p : α → Bool) (f : α → α)
    {l : List α} {x : α} (hx : x ∈ l) (hpx : p x = false) :
    x ∈ updateFirst p f l := by
  induction l with
  | nil => simp at hx
  | cons y ys ih =>
    cases hy : p y with
    | true =>
      rcases List.mem_cons.mp hx with rfl | hmem
      · rw [hpx] at hy; exact absurd hy (by simp)
      · simp [updateFirst, hy, hmem]
    | false =>
      rcases List.mem_cons.mp hx with rfl | hmem
      · simp [updateFirst, hy]
      · simp [updateFirst, hy, ih hmem]

theorem any_updateFirst {α : Type} (p : α → Bool) (f : α → α)
    (h : ∀ a, p (f a) = p a) (l : List α) :
    (updateFirst p f l).any p = l.any p := by
  induction l with
  | nil => rfl
  | cons x xs ih =>
    cases hx : p x <;> simp [updateFirst, hx, List.any_cons, h, ih]

theorem any_updateFirst_strong {α : Type} (p q : α → Bool) (f : α → α)
    (hq : ∀ a, p a = true → q (f a) = true) {l : List α}
    (hl : l.any p = true) : (updateFirst p f l).any q = true := by
  induction l with
  | nil => simp at hl
  | cons x xs ih =>
    cases hx : p x with
    | true => simp [updateFirst, hx, List.any_cons, hq x hx]
    | false =>
      rw [List.any_cons, hx, Bool.false_or] at hl
      simp [updateFirst, hx, List.any_cons, ih hl]

theorem updateFirst_updateFirst {α : Type} (p : α → Bool) (f g : α → α)
    (h : ∀ a, p (f a) = p a) (l : List α) :
    updateFirst p g (updateFirst p f l) =
      updateFirst p (fun a => g (f a)) l := by
  induction l with
  | nil => rfl
  | cons x xs ih => cases hx : p x <;> simp [updateFirst, hx, h, ih]

theorem updateFirst_congr {α : Type} (p : α → Bool) (f g : α → α)
    (h : ∀ a, f a = g a) (l : List α) :
    updateFirst p f l = updateFirst p g l := by
  induction l with
  | nil => rfl
  | cons x xs ih => cases hx : p x <;> simp [updateFirst, hx, h, ih]

theorem removeFirst_sublist {α : Type} (p : α → Bool) (l : List α) :
    (removeFirst p l).Sublist l := by
  induction l with
  | nil => simp [removeFirst]
  | cons x xs ih =>
    cases hx : p x with
    | true =>
      rw [removeFirst, hx]
      simp only [if_true]
      exact List.sublist_cons_self x xs
    | false =>
      rw [removeFirst, hx]
      simp only [Bool.false_eq_true, if_false]
      exact ih.cons₂ x

theorem le_maxNat : ∀ (ids : List Nat), ∀ x ∈ ids, x ≤ maxNat ids
  | [], x, hx => by simp at hx
  | y :: ys, x, hx => by
    rcases List.mem_cons.mp hx with rfl | hm
    · exact le_max_left _ _
    · exact le_trans (le_maxNat ys x hm) (le_max_right _ _)

theorem lt_getNextId {ids : List Nat} {x : Nat} (h : x ∈ ids) :
    x < getNextId ids := by
  have hne : ids.isEmpty = false := by
    cases ids
    · simp at h
    · rfl
  rw [getNextId, hne]
  simp only [Bool.false_eq_true, if_false]
  exact Nat.lt_succ_of_le (le_maxNat ids x h)

theorem getNextId_not_mem (ids : List Nat) : getNextId ids ∉ ids :=
  fun h => absurd (lt_getNextId h) (lt_irrefl _)

theorem nodup_append_single {α : Type} {l : List α} {x : α}
    (h : l.Nodup) (hx : x ∉ l) : (l ++ [x]).Nodup := by
  rw [List.nodup_append]
  exact ⟨h, List.nodup_singleton x, List.disjoint_singleton.mpr hx⟩

theorem countP_filter_le {α : Type} (p q : α → Bool) (l : List α) :
    (l.filter q).countP p ≤ l.countP p := by
  induction l with
  | nil => simp
  | cons x xs ih =>
    cases hq : q x <;> cases hp : p x <;>
      simp [List.filter_cons, hq, List.countP_cons, hp] <;> omega

theorem countP_eq_zero_of_any_eq_false {α : Type} {p : α → Bool}
    {l : List α} (h : l.any p = false) : l.countP p = 0 :=
  List.countP_eq_zero.mpr (List.any_eq_false.mp h)

theorem all_bne_iff_any_beq_false {α β : Type} [BEq α] [LawfulBEq α]
    (g : β → α) (v : α) (l : List β) :
    ((l.all fun b => g b != v) = true) ↔ ((l.any fun b => g b == v) = false) := by
  simp [List.all_eq_true, List.any_eq_false]

theorem nodup_ids_updateFirst {α : Type} {p : α → Bool} {f : α → α}
    {g : α → Nat} (hf : ∀ x, g (f x) = g x) {l : List α}
    (h : (l.map g).Nodup) : ((updateFirst p f l).map g).Nodup := by
  rw [updateFirst_map p f g hf]; exact h

theorem nodup_ids_sublist {α : Type} {l1 l2 : List α} (g : α → Nat)
    (hsub : l1.Sublist l2) (h : (l2.map g).Nodup) : (l1.map g).Nodup :=
  List.Nodup.sublist (hsub.map g) h

theorem nodup_ids_append_new {α : Type} {l : List α} {g : α → Nat}
    (h : (l.map g).Nodup) {x : α} (hx : g x = getNextId (l.map g)) :
    ((l ++ [x]).map g).Nodup := by
  rw [List.map_append, List.map_cons, List.map_nil]
  exact nodup_append_single h (hx ▸ getNextId_not_mem (l.map g))

/-! Store invariants over arbitrary operation sequences. -/

/-- Within every collection, ids are pairwise distinct. -/
def distinctIds (db : DB) : Prop :=
  (db.requests.map (·.id)).Nodup ∧ (db.contacts.map (·.id)).Nodup ∧
    (db.users.map (·.id)).Nodup ∧ (db.admins.map (·.id)).Nodup ∧
    (db.assignments.map (·.id)).Nodup

instance (db : DB) : Decidable (distinctIds db) := by
  unfold distinctIds; infer_instance

/-- At most one assignment per request id. -/
def atMostOnePerRequest (db : DB) : Prop :=
  ∀ rid, db.assignments.countP (fun a => a.requestId == rid) ≤ 1

theorem distinctIds_step (op : Op) {db : DB} (h : distinctIds db) :
    distinctIds (step db op) := by
  obtain ⟨hr, hc, hu, ha, hs⟩ := h
  cases op with
  | createRequest u img t =>
    exact ⟨nodup_ids_append_new hr rfl, hc, hu, ha, hs⟩
  | updateRequestStatus i s t =>
    simp only [step, updateRequestStatus]
    split
    · simp only [persist]
      refine ⟨?_, hc, hu, ha, hs⟩
      apply nodup_ids_updateFirst
      · exact fun x => rfl
      · exact hr
    · simp only [persist]
      exact ⟨hr, hc, hu, ha, hs⟩
  | deleteRequest i =>
    simp only [step, deleteRequest]
    split
    · simp only [persist]
      refine ⟨?_, hc, hu, ha, ?_⟩
      · apply nodup_ids_sublist
        · exact removeFirst_sublist _ _
        · exact hr
      · apply nodup_ids_sublist
        · exact List.filter_sublist _
        · exact hs
    · simp only [persist]
      exact ⟨hr, hc, hu, ha, hs⟩
  | createContact n p e r t =>
    exact ⟨hr, nodup_ids_append_new hc rfl, hu, ha, hs⟩
  | updateContact i n p e r =>
    simp only [step, updateContact]
    split
    · simp only [persist]
      refine ⟨hr, ?_, hu, ha, hs⟩
      apply nodup_ids_updateFirst
      · exact fun x => rfl
      · exact hc
    · simp only [persist]
      exact ⟨hr, hc, hu, ha, hs⟩
  | deleteContact i =>
    simp only [step, deleteContact]
    split
    · simp only [persist]
      refine ⟨hr, ?_, hu, ha, ?_⟩
      · apply nodup_ids_sublist
        · exact removeFirst_sublist _ _
        · exact hc
      · apply nodup_ids_sublist
        · exact List.filter_sublist _
        · exact hs
    · simp only [persist]
      exact ⟨hr, hc, hu, ha, hs⟩
  | createUser un e r s t =>
    exact ⟨hr, hc, nodup_ids_append_new hu rfl, ha, hs⟩
  | updateUser i un e r s =>
    simp only [step, updateUser]
    split
    · simp only [persist]
      refine ⟨hr, hc, ?_, ha, hs⟩
      apply nodup_ids_updateFirst
      · exact fun x => rfl
      · exact hu
    · simp only [persist]
      exact ⟨hr, hc, hu, ha, hs⟩
  | deleteUser i =>
    simp only [step, deleteUser]
    split
    · simp only [persist]
      refine ⟨hr, hc, ?_, ha, ?_⟩
      · apply nodup_ids_sublist
        · exact removeFirst_sublist _ _
        · exact hu
      · apply nodup_ids_sublist
        · exact List.filter_sublist _
        · exact hs
    · simp only [persist]
      exact ⟨hr, hc, hu, ha, hs⟩
  | createAdmin n un e p l s t =>
    exact ⟨hr, hc, hu, nodup_ids_append_new ha rfl, hs⟩
  | updateAdmin i n un e p l s =>
    simp only [step, updateAdmin]
    split
    · simp only [persist]
      refine ⟨hr, hc, hu, ?_, hs⟩
      apply nodup_ids_updateFirst
      · exact fun x => rfl
      · exact ha
    · simp only [persist]
      exact ⟨hr, hc, hu, ha, hs⟩
  | deleteAdmin i =>
    simp only [step, deleteAdmin]
    split
    · simp only [persist]
      refine ⟨hr, hc, hu, ?_, hs⟩
      apply nodup_ids_sublist
      · exact removeFirst_sublist _ _
      · exact ha
    · simp only [persist]
      exact ⟨hr, hc, hu, ha, hs⟩
  | upsertAssignment rid cid uid s t =>
    refine ⟨?_, hc, hu, ha, ?_⟩
    · apply nodup_ids_updateFirst
      · exact fun x => rfl
      · exact hr
    · simp only [step, upsertAssignment]
      split
      · apply nodup_ids_updateFirst
        · exact fun x => rfl
        · exact hs
      · apply nodup_ids_append_new
        · exact hs
        · rfl

theorem atMostOne_step (op : Op) {db : DB} (h : atMostOnePerRequest db) :
    atMostOnePerRequest (step db op) := by
  cases op with
  | createRequest u img t => exact h
  | updateRequestStatus i s t =>
    simp only [step, updateRequestStatus]
    split
    · simp only [persist]
      exact h
    · exact h
  | deleteRequest i =>
    simp only [step, deleteRequest]
    split
    · simp only [persist]
      exact fun rid => le_trans (countP_filter_le _ _ _) (h rid)
    · exact h
  | createContact n p e r t => exact h
  | updateContact i n p e r =>
    simp only [step, updateContact]
    split
    · simp only [persist]
      exact h
    · exact h
  | deleteContact i =>
    simp only [step, deleteContact]
    split
    · simp only [persist]
      exact fun rid => le_trans (countP_filter_le _ _ _) (h rid)
    · exact h
  | createUser un e r s t => exact h
  | updateUser i un e r s =>
    simp only [step, updateUser]
    split
    · simp only [persist]
      exact h
    · exact h
  | deleteUser i =>
    simp only [step, deleteUser]
    split
    · simp only [persist]
      exact fun rid => le_trans (countP_filter_le _ _ _) (h rid)
    · exact h
  | createAdmin n un e p l s t => exact h
  | updateAdmin i n un e p l s =>
    simp only [step, updateAdmin]
    split
    · simp only [persist]
      exact h
    · exact h
  | deleteAdmin i =>
    simp only [step, deleteAdmin]
    split
    · simp only [persist]
      exact h
    · exact h
  | upsertAssignment rid cid uid s t =>
    intro rid2
    simp only [step, upsertAssignment]
    split
    · have e := updateFirst_countP (fun a : Assignment => a.requestId == rid)
        (fun a : Assignment => a.requestId == rid2)
        (fun a => { a with contactId := cid, userId := uid, status := s })
        (fun a => rfl) db.assignments
      exact le_trans (le_of_eq e) (h rid2)
    · rw [List.countP_append]
      rename_i hany
      rw [Bool.not_eq_true] at hany
      by_cases heq : rid = rid2
      · subst heq
        have h0 : db.assignments.countP (fun a => a.requestId == rid) = 0 :=
          countP_eq_zero_of_any_eq_false hany
        simp [List.countP_cons, h0]
      · have hb : (rid == rid2) = false := by simp [heq]
        simp [List.countP_cons, hb]
        exact h rid2

theorem runOps_preserve (P : DB → Prop)
    (hstep : ∀ (op : Op) (db : DB), P db → P (step db op)) :
    ∀ (ops : List Op) (db : DB), P db → P (runOps db ops)
  | [], _, h => h
  | op :: ops, db, h =>
    runOps_preserve P hstep ops (step db op) (hstep op db h)

theorem distinctIds_initial : distinctIds initialData := by decide

theorem distinctIds_runOps (ops : List Op) :
    distinctIds (runOps initialData ops) :=
  runOps_preserve distinctIds (fun op _ h => distinctIds_step op h) ops
    initialData distinctIds_initial

theorem atMostOne_initial : atMostOnePerRequest initialData := by
  intro rid
  simp [initialData]

theorem atMostOne_runOps (ops : List Op) :
    atMostOnePerRequest (runOps initialData ops) :=
  runOps_preserve atMostOnePerRequest (fun op _ h => atMostOne_step op h) ops
    initialData atMostOne_initial


/-! Concrete stores used by the witnesses below. -/

/-- A store holding one request (id 1, created at time 1). -/
def dbJ : DB := createRequest initialData "Jane, Toyota, Rabat" Option.none 1

/-- `dbJ` with an assignment for request 1 (created at time 2). -/
def dbW : DB := upsertAssignment dbJ 1 1 1 "assigned" 2

/-- Operation list reaching `dbW` from the seed. -/
def opsW : List Op :=
  [Op.createRequest "Jane, Toyota, Rabat" Option.none 1,
   Op.upsertAssignment 1 1 1 "assigned" 2]

/-! The claims. -/

/-- C1: after any sequence of store operations from the initial state, every
`requestId` is carried by at most one assignment; moreover `upsertAssignment`
on a `requestId` that already has an assignment updates it in place, leaving
the number of assignments unchanged. -/
theorem claim1_at_most_one_assignment :
    (∀ (ops : List Op) (rid : Nat),
      (runOps initialData ops).assignments.countP
        (fun a => a.requestId == rid) ≤ 1) ∧
    (∀ (db : DB) (rid cid uid : Nat) (s : String) (t : Nat),
      db.assignments.any (fun a => a.requestId == rid) = true →
      (upsertAssignment db rid cid uid s t).assignments.length =
        db.assignments.length) := by
  constructor
  · exact fun ops rid => atMostOne_runOps ops rid
  · intro db rid cid uid s t hany
    simp only [upsertAssignment, hany, if_true]
    exact updateFirst_length _ _ _

/-- C1 witness at concrete inputs. -/
theorem claim1_witness :
    (runOps initialData opsW).assignments.countP
      (fun a => a.requestId == 1) ≤ 1 ∧
    (upsertAssignment dbW 1 2 3 "completed" 5).assignments.length =
      dbW.assignments.length := by
  refine ⟨claim1_at_most_one_assignment.1 opsW 1, ?_⟩
  exact claim1_at_most_one_assignment.2 dbW 1 2 3 "completed" 5 (by decide)

/-- C2: when a request with the given id exists and the clock has advanced
since its last update, `upsertAssignment` forces that request's status to
exactly `In Progress` and strictly increases its `updatedAt`, whatever
assignment status the caller supplied (including `completed`). -/
theorem claim2_status_side_effect (db : DB) (rid cid uid : Nat) (s : String)
    (t : Nat) (r : Request)
    (hf : db.requests.find? (fun x => x.id == rid) = some r)
    (ht : r.updatedAt < t) :
    (upsertAssignment db rid cid uid s t).requests.find?
        (fun x => x.id == rid) =
      some { r with status := "In Progress", updatedAt := t } ∧
    r.updatedAt <
      ({ r with status := "In Progress",
                updatedAt := t } : Request).updatedAt := by
  constructor
  · exact find?_updateFirst (fun x : Request => x.id == rid)
      (fun x : Request => { x with status := "In Progress", updatedAt := t })
      (fun a => rfl) hf
  · exact ht

/-- C2 witness at concrete inputs. -/
theorem claim2_witness :
    (upsertAssignment dbJ 1 4 1 "completed" 2).requests.find?
        (fun x => x.id == 1) =
      some { id := 1, userInfo := "Jane, Toyota, Rabat",
             imageUrl := Option.none, status := "In Progress",
             createdAt := 1, updatedAt := 2 } ∧
    (1 : Nat) < 2 := by
  have h := claim2_status_side_effect dbJ 1 4 1 "completed" 2
    { id := 1, userInfo := "Jane, Toyota, Rabat", imageUrl := Option.none,
      status := "Submitted", createdAt := 1, updatedAt := 1 }
    (by decide) (by decide)
  exact ⟨h.1, by decide⟩

/-- C5: from the seed, every operation sequence leaves all five collections
with pairwise-distinct ids; `getNextId` yields 1 on an empty collection and
`max + 1` on a nonempty one, hence exceeds every existing id. -/
theorem claim5_unique_ids :
    (∀ ops : List Op, distinctIds (runOps initialData ops)) ∧
    getNextId [] = 1 ∧
    (∀ (i : Nat) (ids : List Nat),
      getNextId (i :: ids) = maxNat (i :: ids) + 1) ∧
    (∀ (ids : List Nat) (x : Nat), x ∈ ids → x < getNextId ids) :=
  ⟨distinctIds_runOps, rfl, fun _ _ => rfl, fun _ _ h => lt_getNextId h⟩

/-- C5 witness at concrete inputs. -/
theorem claim5_witness :
    distinctIds (runOps initialData opsW) ∧ (2 : Nat) < getNextId [1, 2] :=
  ⟨claim5_unique_ids.1 opsW, claim5_unique_ids.2.2.2 [1, 2] 2 (by decide)⟩


/-- C7: on any reachable store whose assignment for `rid` is found by
`find?`, an upsert leaves exactly one assignment for `rid`, carrying the new
`contactId`/`userId`/`status` with the pre-existing `id` and `createdAt`;
and on any store already holding an assignment for `rid`, two successive
upserts for `rid` equal the second alone. -/
theorem claim7_idempotent_reassignment :
    (∀ (ops : List Op) (rid cid uid : Nat) (s : String) (t : Nat)
        (a : Assignment),
      (runOps initialData ops).assignments.find?
          (fun x => x.requestId == rid) = some a →
      ((upsertAssignment (runOps initialData ops) rid cid uid s t).assignments.countP
          (fun x => x.requestId == rid) = 1 ∧
        (upsertAssignment (runOps initialData ops) rid cid uid s t).assignments.find?
          (fun x => x.requestId == rid) =
            some { a with contactId := cid, userId := uid, status := s })) ∧
    (∀ (db : DB) (rid c1 u1 : Nat) (s1 : String) (t1 : Nat)
        (c2 u2 : Nat) (s2 : String) (t2 : Nat),
      db.assignments.any (fun x => x.requestId == rid) = true →
      upsertAssignment (upsertAssignment db rid c1 u1 s1 t1) rid c2 u2 s2 t2 =
        upsertAssignment db rid c2 u2 s2 t2) := by
  constructor
  · intro ops rid cid uid s t a hf
    have hmem := List.mem_of_find?_eq_some hf
    have hp := List.find?_some hf
    have hany : (runOps initialData ops).assignments.any
        (fun x => x.requestId == rid) = true :=
      List.any_eq_true.mpr ⟨a, hmem, hp⟩
    constructor
    · have hle := atMostOne_runOps ops rid
      have hpos : 0 < (runOps initialData ops).assignments.countP
          (fun x => x.requestId == rid) :=
        List.countP_pos_iff.mpr ⟨a, hmem, hp⟩
      have e := updateFirst_countP (fun x : Assignment => x.requestId == rid)
        (fun x : Assignment => x.requestId == rid)
        (fun x => { x with contactId := cid, userId := uid, status := s })
        (fun x => rfl) (runOps initialData ops).assignments
      simp only [upsertAssignment, hany, if_true]
      rw [e]
      omega
    · have e2 := find?_updateFirst (fun x : Assignment => x.requestId == rid)
        (fun x : Assignment =>
          { x with contactId := cid, userId := uid, status := s })
        (fun x => rfl) hf
      simp only [upsertAssignment, hany, if_true]
      exact e2
  · intro db rid c1 u1 s1 t1 c2 u2 s2 t2 hany
    have e3 := any_updateFirst (fun x : Assignment => x.requestId == rid)
      (fun x : Assignment =>
        { x with contactId := c1, userId := u1, status := s1 })
      (fun x => rfl) db.assignments
    have hany2 : (updateFirst (fun x : Assignment => x.requestId == rid)
        (fun x : Assignment =>
          { x with contactId := c1, userId := u1, status := s1 })
        db.assignments).any (fun x => x.requestId == rid) = true := by
      rw [e3]; exact hany
    have e4 := updateFirst_updateFirst
      (fun x : Assignment => x.requestId == rid)
      (fun x : Assignment =>
        { x with contactId := c1, userId := u1, status := s1 })
      (fun x : Assignment =>
        { x with contactId := c2, userId := u2, status := s2 })
      (fun x => rfl) db.assignments
    have e5 := updateFirst_updateFirst (fun r : Request => r.id == rid)
      (fun r : Request => { r with status := "In Progress", updatedAt := t1 })
      (fun r : Request => { r with status := "In Progress", updatedAt := t2 })
      (fun x => rfl) db.requests
    simp only [upsertAssignment, hany, hany2, if_true]
    rw [e4, e5]

/-- C7 witness at concrete inputs. -/
theorem claim7_witness :
    (upsertAssignment (runOps initialData opsW) 1 2 3 "completed" 5).assignments.countP
      (fun x => x.requestId == 1) = 1 ∧
    upsertAssignment (upsertAssignment dbW 1 9 9 "zz" 6) 1 2 3 "done" 7 =
      upsertAssignment dbW 1 2 3 "done" 7 := by
  have h1 := claim7_idempotent_reassignment.1 opsW 1 2 3 "completed" 5
    { id := 1, requestId := 1, contactId := 1, userId := 1,
      status := "assigned", createdAt := 2 } (by decide)
  exact ⟨h1.1,
    claim7_idempotent_reassignment.2 dbW 1 9 9 "zz" 6 2 3 "done" 7 (by decide)⟩


/-- C8: `updateRequestStatus` fails with NotFound exactly when no request has
the id; when the request is found, the returned store carries the
caller-supplied status text (accepted without validation) and the fresh
`updatedAt` on that request, with its other fields, the other requests, and
every other collection unchanged. -/
theorem claim8_update_request_status (db : DB) (id : Nat) (s : String)
    (t : Nat) :
    (updateRequestStatus db id s t = .error .notFound ↔
      db.requests.all (fun r => r.id != id) = true) ∧
    (∀ r, db.requests.find? (fun x => x.id == id) = some r →
      ∃ db2, updateRequestStatus db id s t = .ok db2 ∧
        db2.requests.find? (fun x => x.id == id) =
          some { r with status := s, updatedAt := t } ∧
        db2.requests.length = db.requests.length ∧
        (∀ x ∈ db.requests, (x.id == id) = false → x ∈ db2.requests) ∧
        db2.contacts = db.contacts ∧ db2.users = db.users ∧
        db2.admins = db.admins ∧ db2.assignments = db.assignments) := by
  have hiff := all_bne_iff_any_beq_false (fun r : Request => r.id) id
    db.requests
  constructor
  · constructor
    · intro h
      by_cases hc : db.requests.any (fun r => r.id == id) = true
      · rw [updateRequestStatus] at h
        simp [hc] at h
      · rw [Bool.not_eq_true] at hc
        exact hiff.mpr hc
    · intro h
      have hc : db.requests.any (fun r => r.id == id) = false := hiff.mp h
      rw [updateRequestStatus]
      simp [hc]
  · intro r hf
    have hmem := List.mem_of_find?_eq_some hf
    have hp := List.find?_some hf
    have hany : db.requests.any (fun r => r.id == id) = true :=
      List.any_eq_true.mpr ⟨r, hmem, hp⟩
    refine ⟨{ db with requests := updateFirst (fun x => x.id == id) (fun x => { x with status := s, updatedAt := t }) db.requests }, ?_, ?_, ?_, ?_, rfl, rfl, rfl, rfl⟩
    · rw [updateRequestStatus]
      simp [hany]
    · exact find?_updateFirst (fun x : Request => x.id == id)
        (fun x : Request => { x with status := s, updatedAt := t })
        (fun a => rfl) hf
    · exact updateFirst_length _ _ _
    · intro x hx hneq
      exact mem_updateFirst_of_neg _ _ hx hneq

/-- A store obtained by updating the status of request 1 of `dbJ`. -/
def dbJupd : DB := persist dbJ (updateRequestStatus dbJ 1 "Totally Custom" 2)

/-- C8 witness at concrete inputs. -/
theorem claim8_witness :
    updateRequestStatus dbJ 1 "Totally Custom" 2 = Except.ok dbJupd ∧
    dbJupd.requests.find? (fun x => x.id == 1) =
      some { id := 1, userInfo := "Jane, Toyota, Rabat",
             imageUrl := Option.none, status := "Totally Custom",
             createdAt := 1, updatedAt := 2 } := by
  obtain ⟨db2, heq, hfind, hlen, hmem2, hcs, hus, has2, hass⟩ :=
    (claim8_update_request_status dbJ 1 "Totally Custom" 2).2
      { id := 1, userInfo := "Jane, Toyota, Rabat", imageUrl := Option.none,
        status := "Submitted", createdAt := 1, updatedAt := 1 } (by decide)
  have hd : dbJupd = db2 := by
    unfold dbJupd
    rw [heq]
    rfl
  constructor
  · rw [hd]
    exact heq
  · rw [hd]
    exact hfind

/-- C9: an operation that fails with NotFound leaves the persisted store
untouched; in particular `deleteRequest` and `deleteContact`, which filter
the assignments in memory before discovering the target is absent, write
nothing on that path. -/
theorem claim9_notfound_atomicity (db : DB) (id : Nat) :
    (db.requests.all (fun r => r.id != id) = true →
      deleteRequest db id = .error .notFound ∧
      step db (Op.deleteRequest id) = db) ∧
    (db.contacts.all (fun c => c.id != id) = true →
      deleteContact db id = .error .notFound ∧
      step db (Op.deleteContact id) = db) := by
  constructor
  · intro h
    have hc : db.requests.any (fun r => r.id == id) = false :=
      (all_bne_iff_any_beq_false (fun r : Request => r.id) id db.requests).mp h
    constructor
    · rw [deleteRequest]
      simp [hc]
    · simp [step, deleteRequest, hc, persist]
  · intro h
    have hc : db.contacts.any (fun c => c.id == id) = false :=
      (all_bne_iff_any_beq_false (fun c : Contact => c.id) id db.contacts).mp h
    constructor
    · rw [deleteContact]
      simp [hc]
    · simp [step, deleteContact, hc, persist]

/-- C9 witness at concrete inputs. -/
theorem claim9_witness :
    (deleteRequest initialData 999 = Except.error StoreError.notFound ∧
      step initialData (Op.deleteRequest 999) = initialData) ∧
    (deleteContact initialData 999 = Except.error StoreError.notFound ∧
      step initialData (Op.deleteContact 999) = initialData) :=
  ⟨(claim9_notfound_atomicity initialData 999).1 (by decide),
   (claim9_notfound_atomicity initialData 999).2 (by decide)⟩

/-- C4: a successful delete of a request, contact or user leaves no
assignment referencing the deleted id. -/
theorem claim4_cascade_completeness (db : DB) (id : Nat) :
    (∀ db2, deleteRequest db id = .ok db2 →
      db2.assignments.all (fun a => a.requestId != id) = true) ∧
    (∀ db2, deleteContact db id = .ok db2 →
      db2.assignments.all (fun a => a.contactId != id) = true) ∧
    (∀ db2, deleteUser db id = .ok db2 →
      db2.assignments.all (fun a => a.userId != id) = true) := by
  refine ⟨?_, ?_, ?_⟩
  · intro db2 h
    by_cases hc : db.requests.any (fun r => r.id == id) = true
    · rw [deleteRequest] at h
      simp [hc] at h
      subst h
      rw [List.all_eq_true]
      intro a ha
      exact (List.mem_filter.mp ha).2
    · rw [deleteRequest] at h
      simp [hc] at h
  · intro db2 h
    by_cases hc : db.contacts.any (fun c => c.id == id) = true
    · rw [deleteContact] at h
      simp [hc] at h
      subst h
      rw [List.all_eq_true]
      intro a ha
      exact (List.mem_filter.mp ha).2
    · rw [deleteContact] at h
      simp [hc] at h
  · intro db2 h
    by_cases hc : db.users.any (fun u => u.id == id) = true
    · rw [deleteUser] at h
      simp [hc] at h
      subst h
      rw [List.all_eq_true]
      intro a ha
      exact (List.mem_filter.mp ha).2
    · rw [deleteUser] at h
      simp [hc] at h

/-- Store left by deleting request 1 from `dbW`. -/
def dbWreq : DB := step dbW (Op.deleteRequest 1)

/-- Store left by deleting contact 1 from `dbW`. -/
def dbWcon : DB := step dbW (Op.deleteContact 1)

/-- Store left by deleting user 1 from `dbW`. -/
def dbWuse : DB := step dbW (Op.deleteUser 1)

/-- C4 witness at concrete inputs. -/
theorem claim4_witness :
    deleteRequest dbW 1 = Except.ok dbWreq ∧
    dbWreq.assignments.all (fun a => a.requestId != 1) = true ∧
    deleteContact dbW 1 = Except.ok dbWcon ∧
    dbWcon.assignments.all (fun a => a.contactId != 1) = true ∧
    deleteUser dbW 1 = Except.ok dbWuse ∧
    dbWuse.assignments.all (fun a => a.userId != 1) = true := by
  have h1 : deleteRequest dbW 1 = Except.ok dbWreq := rfl
  have h2 : deleteContact dbW 1 = Except.ok dbWcon := rfl
  have h3 : deleteUser dbW 1 = Except.ok dbWuse := rfl
  exact ⟨h1, (claim4_cascade_completeness dbW 1).1 dbWreq h1,
    h2, (claim4_cascade_completeness dbW 1).2.1 dbWcon h2,
    h3, (claim4_cascade_completeness dbW 1).2.2 dbWuse h3⟩


/-- C3, counterexample: on the seed store (no requests, contact ids 1-3,
user ids 1-3), `upsertAssignment 999 999 999` creates an assignment whose
three references all point at entities absent at creation time. -/
theorem claim3_counterexample :
    (upsertAssignment initialData 999 999 999 "assigned" 1).assignments.any
      (fun a => a.requestId == 999 && a.contactId == 999 && a.userId == 999)
      = true ∧
    initialData.requests.all (fun r => r.id != 999) = true ∧
    initialData.contacts.all (fun c => c.id != 999) = true ∧
    initialData.users.all (fun u => u.id != 999) = true := by decide

/-- C3 amended: `upsertAssignment` performs no existence check at creation
time: for every store and any `requestId`/`contactId`/`userId`, the
resulting store holds an assignment carrying exactly those references and
that status, whether or not any referenced entity exists. -/
theorem claim3_no_existence_check (db : DB) (rid cid uid : Nat) (s : String)
    (t : Nat) :
    (upsertAssignment db rid cid uid s t).assignments.any
      (fun a => a.requestId == rid && a.contactId == cid &&
        a.userId == uid && a.status == s) = true := by
  by_cases hc : db.assignments.any (fun a => a.requestId == rid) = true
  · simp only [upsertAssignment, hc, if_true]
    apply any_updateFirst_strong
    · intro a ha
      simp [ha]
    · exact hc
  · rw [Bool.not_eq_true] at hc
    simp [upsertAssignment, hc, List.any_append]

/-- C6, counterexample: one `createUser` call whose username and email
duplicate seed user 1 leaves both columns with duplicates. -/
theorem claim6_counterexample :
    ¬ (((runOps initialData
      [Op.createUser "admin1" "admin1@roadside.com" "operator" "active" 1]).users.map
        (·.username)).Nodup) ∧
    ¬ (((runOps initialData
      [Op.createUser "admin1" "admin1@roadside.com" "operator" "active" 1]).users.map
        (·.email)).Nodup) := by decide

/-- C6 amended: the seed usernames and emails are pairwise distinct, but
neither `createUser` nor `updateUser` enforces uniqueness: creating a user
always appends it, raising by one the count of users carrying its username
and its email, and an update can equally duplicate an existing username. -/
theorem claim6_no_uniqueness_enforcement :
    ((initialData.users.map (·.username)).Nodup ∧
      (initialData.users.map (·.email)).Nodup) ∧
    (∀ (db : DB) (un e r s : String) (t : Nat),
      (createUser db un e r s t).users.countP (fun u => u.username == un) =
        db.users.countP (fun u => u.username == un) + 1 ∧
      (createUser db un e r s t).users.countP (fun u => u.email == e) =
        db.users.countP (fun u => u.email == e) + 1) ∧
    (persist initialData
        (updateUser initialData 2 "admin1" "x@y.com" "admin" "active")).users.countP
      (fun u => u.username == "admin1") = 2 := by
  refine ⟨by decide, ?_, by decide⟩
  intro db un e r s t
  constructor
  · simp [createUser, List.countP_append, List.countP_cons]
  · simp [createUser, List.countP_append, List.countP_cons]

/-! Lemmas about `cleanRequests`. -/

theorem contains_iff_mem {α : Type} [BEq α] [LawfulBEq α] {l : List α}
    {a : α} : l.contains a = true ↔ a ∈ l := by
  rw [List.contains_eq_any_beq]
  simp [List.any_eq_true]

theorem dedupByKey_sublist (seen : List String) (l : List Request) :
    (dedupByKey seen l).Sublist l := by
  induction l generalizing seen with
  | nil => simp [dedupByKey]
  | cons r rs ih =>
    by_cases hc : seen.contains (reqKey r) = true
    · simp only [dedupByKey, hc, if_true]
      exact List.Sublist.cons r (ih seen)
    · rw [Bool.not_eq_true] at hc
      simp only [dedupByKey, hc, Bool.false_eq_true, if_false]
      exact List.Sublist.cons₂ r (ih (reqKey r :: seen))

theorem dedupByKey_keys (seen : List String) (l : List Request) :
    ((dedupByKey seen l).map reqKey).Nodup ∧
      ∀ k ∈ (dedupByKey seen l).map reqKey, k ∉ seen := by
  induction l generalizing seen with
  | nil => simp [dedupByKey]
  | cons r rs ih =>
    by_cases hc : seen.contains (reqKey r) = true
    · simp only [dedupByKey, hc, if_true]
      exact ih seen
    · have hnotmem : reqKey r ∉ seen := fun hm => hc (contains_iff_mem.mpr hm)
      rw [Bool.not_eq_true] at hc
      simp only [dedupByKey, hc, Bool.false_eq_true, if_false, List.map_cons]
      obtain ⟨hnd, hmem⟩ := ih (reqKey r :: seen)
      constructor
      · rw [List.nodup_cons]
        refine ⟨fun hmem2 => ?_, hnd⟩
        exact (hmem _ hmem2) (List.mem_cons_self _ _)
      · intro k hk
        rcases List.mem_cons.mp hk with rfl | hk2
        · exact hnotmem
        · exact fun hkseen => (hmem k hk2) (List.mem_cons_of_mem _ hkseen)

theorem renumber_eq_zipWith (n : Nat) (l : List Request) :
    renumber n l = (List.range' n l.length).zipWith fixRequest l := by
  induction l generalizing n with
  | nil => simp [renumber]
  | cons r rs ih => simp [renumber, List.range'_succ, ih]

theorem renumber_map_id (n : Nat) (l : List Request) :
    (renumber n l).map (·.id) = List.range' n l.length := by
  induction l generalizing n with
  | nil => simp [renumber]
  | cons r rs ih => simp [renumber, List.range'_succ, ih, fixRequest]

/-- Request used by the C10 counterexample (null photo). -/
def reqA : Request :=
  { id := 7, userInfo := "a", imageUrl := Option.none, status := "Submitted",
    createdAt := 0, updatedAt := 0 }

/-- Request used by the C10 counterexample (photo already stored at the
placeholder path). -/
def reqB : Request :=
  { id := 8, userInfo := "a", imageUrl := some "/uploads/placeholder.png",
    status := "Submitted", createdAt := 3, updatedAt := 4 }

/-- C10, counterexample: `cleanRequests` deduplicates on the key computed
before the placeholder substitution, so a null-photo record and a record
already carrying the placeholder path both survive, leaving the output with
two records bearing the same `(userInfo, imageUrl)` pair. -/
theorem claim10_counterexample :
    ¬ (((cleanRequests [reqA, reqB]).map
      (fun r => (r.userInfo, r.imageUrl))).Nodup) := by decide

/-- C10 amended: the survivors of `cleanRequests` are the input records, in
order, whose pre-substitution keys (`userInfo + '|' + imageUrl`, null
printed as `"null"`) are pairwise distinct; the output renumbers them with
consecutive ids `1..n` and replaces a null `imageUrl` by the placeholder,
leaving every other field unchanged. -/
theorem claim10_clean_characterization (l : List Request) :
    (dedupByKey [] l).Sublist l ∧
    ((dedupByKey [] l).map reqKey).Nodup ∧
    (cleanRequests l).map (·.id) = List.range' 1 (dedupByKey [] l).length ∧
    cleanRequests l =
      (List.range' 1 (dedupByKey [] l).length).zipWith fixRequest
        (dedupByKey [] l) :=
  ⟨dedupByKey_sublist [] l, (dedupByKey_keys [] l).1,
   renumber_map_id 1 (dedupByKey [] l), renumber_eq_zipWith 1 (dedupByKey [] l)⟩

end Roadside
